import Mathlib

/-!
Verification of the NewsFlowPro storage layer and HTTP route handlers.

The TypeScript source (src/server/storage.ts and the Express route
registration) is shallowly embedded here:

* JavaScript `Map<string, T>` becomes an association list with insertion-order
  iteration (`mapGet`, `mapSet`, `mapDelete`, `mapValues`), matching Map
  semantics: `set` on an existing key updates it in place, `set` on a new key
  appends, `delete` returns whether the key existed.
* JS numbers that hold integral counters/timestamps become `Int`; nullable
  database columns (drizzle columns without `notNull`) become `Option`.
* `randomUUID()` and `new Date()` are nondeterministic, so every operation
  that consumes them takes the generated id / current time as an argument.
* SQL `ILIKE '%x%'` becomes a case-insensitive substring test; `ORDER BY
  created_at DESC` and the (stable, per ES2019) JS `Array.prototype.sort`
  both become a stable insertion sort on the same descending key, which is
  the unique stable sort for that comparator.
-/

set_option maxRecDepth 8192

namespace NewsFlow

/-! ## JavaScript Map model (association list in insertion order) -/

variable {α : Type}

def mapGet : List (String × α) → String → Option α
  | [], _ => none
  | (k', v) :: rest, k => if k' = k then some v else mapGet rest k

def mapSet : List (String × α) → String → α → List (String × α)
  | [], k, v => [(k, v)]
  | (k', v') :: rest, k, v =>
    if k' = k then (k, v) :: rest else (k', v') :: mapSet rest k v

def mapDelete : List (String × α) → String → Bool × List (String × α)
  | [], _ => (false, [])
  | (k', v') :: rest, k =>
    if k' = k then (true, rest)
    else
      let r := mapDelete rest k
      (r.1, (k', v') :: r.2)

def mapValues (m : List (String × α)) : List α := m.map Prod.snd

def mapKeys (m : List (String × α)) : List String := m.map Prod.fst

/-! ## Data model (shared/schema.ts)

Drizzle columns without `notNull` are nullable, hence `Option`; `createdAt`
and `updatedAt` are `timestamp ... notNull` and the in-memory store always
sets them, so they are plain `Int` (milliseconds since epoch). -/

structure Article where
  id : String
  title : String
  content : String
  excerpt : String
  author : String
  authorTitle : String
  authorImage : Option String
  category : String
  tags : Option (List String)
  imageUrl : Option String
  published : Option Bool
  featured : Option Bool
  views : Option Int
  likes : Option Int
  createdAt : Int
  updatedAt : Int
deriving DecidableEq

structure Comment where
  id : String
  articleId : String
  author : String
  email : String
  content : String
  createdAt : Int
deriving DecidableEq

structure Category where
  id : String
  name : String
  slug : String
  description : Option String
  color : String
deriving DecidableEq

/-- InsertArticle = z.infer of insertArticleSchema: createInsertSchema(articles)
with id/views/likes/createdAt/updatedAt omitted; columns with defaults or
nullable columns are optional. -/
structure InsertArticle where
  title : String
  content : String
  excerpt : String
  author : String
  authorTitle : String
  authorImage : Option String
  category : String
  tags : Option (List String)
  imageUrl : Option String
  published : Option Bool
  featured : Option Bool
deriving DecidableEq

/-- Partial InsertArticle as produced by insertArticleSchema.partial().parse:
every field may be absent (outer Option = key absent). -/
structure ArticleUpdate where
  title : Option String
  content : Option String
  excerpt : Option String
  author : Option String
  authorTitle : Option String
  authorImage : Option (Option String)
  category : Option String
  tags : Option (Option (List String))
  imageUrl : Option (Option String)
  published : Option (Option Bool)
  featured : Option (Option Bool)
deriving DecidableEq

structure InsertComment where
  articleId : String
  author : String
  email : String
  content : String
deriving DecidableEq

/-- SearchParams after coercion (schema.ts searchSchema / route coercion). -/
structure SearchParams where
  query : Option String
  category : Option String
  published : Option Bool
  featured : Option Bool
deriving DecidableEq

/-! ## String helpers -/

/-- Boolean test: `p` is an initial segment of `l`. -/
def hasPre : List Char → List Char → Bool
  | [], _ => true
  | _ :: _, [] => false
  | a :: p, b :: l => a == b && hasPre p l

/-- Boolean test: `pat` occurs as a contiguous segment of the first list. -/
def hasSub : List Char → List Char → Bool
  | [], pat => hasPre pat []
  | b :: rest, pat => hasPre pat (b :: rest) || hasSub rest pat

/-- JS `hay.includes(needle)`: substring test. -/
def strIncludes (hay needle : String) : Bool :=
  hasSub hay.data needle.data

/-- JS `s.toLowerCase()`: characterwise lowering. -/
def jsToLower (s : String) : String :=
  String.mk (s.data.map Char.toLower)

/-! ## Sorting

JS `Array.prototype.sort` with comparator `(a, b) => b.createdAt - a.createdAt`
is a stable sort ordered by descending `createdAt`; any stable sort for a
total preorder produces the same list, so we use insertion sort.  SQL
`ORDER BY created_at DESC` is modelled the same way (ties in table order). -/

def createdDesc (a b : Article) : Prop := b.createdAt ≤ a.createdAt

instance : DecidableRel createdDesc :=
  fun a b => inferInstanceAs (Decidable (b.createdAt ≤ a.createdAt))

instance : IsTotal Article createdDesc :=
  ⟨fun a b => Int.le_total b.createdAt a.createdAt⟩

instance : IsTrans Article createdDesc :=
  ⟨fun _ _ _ h1 h2 => le_trans h2 h1⟩

def sortByCreatedAtDesc (l : List Article) : List Article :=
  List.insertionSort createdDesc l

def commentDesc (a b : Comment) : Prop := b.createdAt ≤ a.createdAt

instance : DecidableRel commentDesc :=
  fun a b => inferInstanceAs (Decidable (b.createdAt ≤ a.createdAt))

def sortCommentsDesc (l : List Comment) : List Comment :=
  List.insertionSort commentDesc l

/-! ## MemStorage.getArticles (storage.ts lines 359-386)

Each `if` block of the source becomes one filter stage.  The `query` and
`category` guards use JS truthiness (`if (params?.query)`), so the empty
string disables the filter; `published`/`featured` are compared against
`undefined` and so apply even when false. -/

def queryFilter (q : Option String) (l : List Article) : List Article :=
  match q with
  | none => l
  | some q =>
    if q = "" then l
    else
      let ql := jsToLower q
      l.filter fun a =>
        strIncludes (jsToLower a.title) ql || strIncludes (jsToLower a.content) ql ||
          strIncludes (jsToLower a.author) ql

def categoryFilter (c : Option String) (l : List Article) : List Article :=
  match c with
  | none => l
  | some c =>
    if c = "" then l
    else l.filter fun a => decide (jsToLower a.category = jsToLower c)

def publishedFilter (p : Option Bool) (l : List Article) : List Article :=
  match p with
  | none => l
  | some b => l.filter fun a => decide (a.published = some b)

def featuredFilter (f : Option Bool) (l : List Article) : List Article :=
  match f with
  | none => l
  | some b => l.filter fun a => decide (a.featured = some b)

def memGetArticles (p : SearchParams) (l : List Article) : List Article :=
  sortByCreatedAtDesc
    (featuredFilter p.featured
      (publishedFilter p.published
        (categoryFilter p.category (queryFilter p.query l))))

/-! ## DatabaseStorage.getArticles (storage.ts lines 32-57)

The source pushes conditions (category ILIKE %c%, title ILIKE %q%,
featured = f — note: no `published` condition and query matches the title
only) and applies `where(and(...))` when nonempty, then ORDER BY
created_at DESC.  The database table is modelled as a list of rows in
insertion order. -/

def dbConditions (p : SearchParams) : List (Article → Bool) :=
  (match p.category with
   | some c =>
     if c = "" then []
     else [fun a => strIncludes (jsToLower a.category) (jsToLower c)]
   | none => []) ++
  (match p.query with
   | some q =>
     if q = "" then []
     else [fun a => strIncludes (jsToLower a.title) (jsToLower q)]
   | none => []) ++
  (match p.featured with
   | some f => [fun a => decide (a.featured = some f)]
   | none => [])

def dbGetArticles (p : SearchParams) (rows : List Article) : List Article :=
  let conds := dbConditions p
  let filtered := if conds.isEmpty then rows else rows.filter fun a => conds.all fun c => c a
  sortByCreatedAtDesc filtered

/-- MemStorage.getCommentsByArticleId: filter by articleId, newest first. -/
def memGetCommentsByArticleId (cl : List Comment) (aid : String) : List Comment :=
  sortCommentsDesc (cl.filter fun c => decide (c.articleId = aid))

/-- DatabaseStorage.getCommentsByArticleId: WHERE article_id = aid, no ORDER BY
(rows come back in table order). -/
def dbGetCommentsByArticleId (cl : List Comment) (aid : String) : List Comment :=
  cl.filter fun c => decide (c.articleId = aid)

/-! ## MemStorage state and mutating operations -/

structure MemState where
  articles : List (String × Article)
  comments : List (String × Comment)
  categories : List (String × Category)
deriving DecidableEq

def memGetArticle (s : MemState) (id : String) : Option Article :=
  mapGet s.articles id

/-- MemStorage.createArticle.  JS `x || y` yields y when x is falsy, so
`insertArticle.authorImage || null` collapses the empty string to null; an
empty tags array is truthy and is kept. -/
def jsOrNull (x : Option String) : Option String :=
  match x with
  | some s => if s = "" then none else some s
  | none => none

def memCreateArticle (s : MemState) (newId : String) (now : Int)
    (ins : InsertArticle) : Article × MemState :=
  let article : Article :=
    { id := newId
      title := ins.title
      content := ins.content
      excerpt := ins.excerpt
      author := ins.author
      authorTitle := ins.authorTitle
      authorImage := jsOrNull ins.authorImage
      category := ins.category
      tags := some (ins.tags.getD [])
      imageUrl := jsOrNull ins.imageUrl
      published := ins.published
      featured := ins.featured
      views := some 0
      likes := some 0
      createdAt := now
      updatedAt := now }
  (article, { s with articles := mapSet s.articles newId article })

/-- Spread merge `{ ...article, ...updates, updatedAt: new Date() }`. -/
def applyUpdate (a : Article) (u : ArticleUpdate) (now : Int) : Article :=
  { a with
    title := u.title.getD a.title
    content := u.content.getD a.content
    excerpt := u.excerpt.getD a.excerpt
    author := u.author.getD a.author
    authorTitle := u.authorTitle.getD a.authorTitle
    authorImage := u.authorImage.getD a.authorImage
    category := u.category.getD a.category
    tags := u.tags.getD a.tags
    imageUrl := u.imageUrl.getD a.imageUrl
    published := u.published.getD a.published
    featured := u.featured.getD a.featured
    updatedAt := now }

def memUpdateArticle (s : MemState) (id : String) (u : ArticleUpdate)
    (now : Int) : Option Article × MemState :=
  match mapGet s.articles id with
  | none => (none, s)
  | some a =>
    let updated := applyUpdate a u now
    (some updated, { s with articles := mapSet s.articles id updated })

def memDeleteArticle (s : MemState) (id : String) : Bool × MemState :=
  let r := mapDelete s.articles id
  (r.1, { s with articles := r.2 })

/-- The in-place mutation `article.views = (article.views || 0) + 1`.
JS `||` maps both null and 0 to 0, i.e. `Option.getD 0` on integers. -/
def bumpViews (a : Article) : Article :=
  { a with views := some (a.views.getD 0 + 1) }

/-- The in-place mutation `article.likes = (article.likes || 0) + 1`. -/
def bumpLikes (a : Article) : Article :=
  { a with likes := some (a.likes.getD 0 + 1) }

/-- MemStorage.incrementViews. -/
def memIncrementViews (s : MemState) (id : String) : MemState :=
  match mapGet s.articles id with
  | none => s
  | some a => { s with articles := mapSet s.articles id (bumpViews a) }

/-- MemStorage.toggleLike. -/
def memToggleLike (s : MemState) (id : String) : Option Article × MemState :=
  match mapGet s.articles id with
  | none => (none, s)
  | some a =>
    (some (bumpLikes a), { s with articles := mapSet s.articles id (bumpLikes a) })

def memCreateComment (s : MemState) (newId : String) (now : Int)
    (ins : InsertComment) : Comment × MemState :=
  let c : Comment :=
    { id := newId
      articleId := ins.articleId
      author := ins.author
      email := ins.email
      content := ins.content
      createdAt := now }
  (c, { s with comments := mapSet s.comments newId c })

def memDeleteComment (s : MemState) (id : String) : Bool × MemState :=
  let r := mapDelete s.comments id
  (r.1, { s with comments := r.2 })

def memDeleteCategory (s : MemState) (id : String) : Bool × MemState :=
  let r := mapDelete s.categories id
  (r.1, { s with categories := r.2 })

def memGetCategories (s : MemState) : List Category :=
  mapValues s.categories

/-! ## HTTP layer

Responses are abstracted to their status/payload: `badRequest` carries the
zod issue paths (400), `notFound` is 404, `noContent` is 204,
`createdArticle`/`createdComment` are 201, the `ok*` constructors are 200. -/

inductive HResp where
  | okArticles (l : List Article)
  | okArticle (a : Article)
  | createdArticle (a : Article)
  | createdComment (c : Comment)
  | badRequest (fields : List String)
  | notFound
  | noContent
  | okXml (body : String)
deriving DecidableEq

/-- Raw query-string parameters: each one either absent or a string. -/
structure QueryParams where
  query : Option String
  category : Option String
  published : Option String
  featured : Option String
deriving DecidableEq

/-- The defensive coercion in GET /api/articles and GET /api/search:
`queryParams.query ? String(queryParams.query) : undefined` (truthiness, so
the empty string becomes undefined) and
`queryParams.published !== undefined ? queryParams.published === 'true' :
undefined` (any supplied string other than "true" becomes false). -/
def coerceParams (qp : QueryParams) : SearchParams :=
  { query := match qp.query with
      | some s => if s = "" then none else some s
      | none => none
    category := match qp.category with
      | some s => if s = "" then none else some s
      | none => none
    published := qp.published.map fun v => decide (v = "true")
    featured := qp.featured.map fun v => decide (v = "true") }

def articlesRouteList (s : MemState) (qp : QueryParams) : List Article :=
  memGetArticles (coerceParams qp) (mapValues s.articles)

/-- GET /api/articles handler. -/
def articlesRoute (s : MemState) (qp : QueryParams) : HResp :=
  .okArticles (articlesRouteList s qp)

def searchRouteList (s : MemState) (qp : QueryParams) : List Article :=
  memGetArticles (coerceParams qp) (mapValues s.articles)

/-- GET /api/search handler (same coercion and delegation as /api/articles). -/
def searchRoute (s : MemState) (qp : QueryParams) : HResp :=
  .okArticles (searchRouteList s qp)

/-- GET /api/articles/:id handler.  The handler fetches the article, calls
incrementViews, then runs `res.json(article)`.  `article` is the very object
stored in the Map and incrementViews mutates it in place, so the serialized
payload is the post-increment stored article; the embedding therefore reads
the article back from the updated state.  (The inner `none` branch is
unreachable: incrementViews never removes a key.) -/
def routeGetArticle (s : MemState) (id : String) : HResp × MemState :=
  match mapGet s.articles id with
  | none => (.notFound, s)
  | some _ =>
    let s' := memIncrementViews s id
    match mapGet s'.articles id with
    | some a => (.okArticle a, s')
    | none => (.notFound, s')

/-- A JSON request body for POST /api/articles, with every field either
absent or well-typed.  `views`/`likes` may be supplied by the client but
are omitted by insertArticleSchema. -/
structure RawArticleBody where
  title : Option String
  content : Option String
  excerpt : Option String
  author : Option String
  authorTitle : Option String
  authorImage : Option String
  category : Option String
  tags : Option (List String)
  imageUrl : Option String
  published : Option Bool
  featured : Option Bool
  views : Option Int
  likes : Option Int
deriving DecidableEq

/-- Paths of the zod issues for missing required fields (the six notNull
columns without defaults that insertArticleSchema keeps). -/
def requiredArticleErrors (b : RawArticleBody) : List String :=
  (if b.title.isNone then ["title"] else []) ++
  (if b.content.isNone then ["content"] else []) ++
  (if b.excerpt.isNone then ["excerpt"] else []) ++
  (if b.author.isNone then ["author"] else []) ++
  (if b.authorTitle.isNone then ["authorTitle"] else []) ++
  (if b.category.isNone then ["category"] else [])

/-- insertArticleSchema.parse: succeeds iff all required fields are present;
the omitted columns (id, views, likes, createdAt, updatedAt) are stripped. -/
def parseInsertArticle (b : RawArticleBody) : Except (List String) InsertArticle :=
  match b.title, b.content, b.excerpt, b.author, b.authorTitle, b.category with
  | some t, some c, some e, some au, some atl, some cat =>
    .ok { title := t, content := c, excerpt := e, author := au,
          authorTitle := atl, authorImage := b.authorImage, category := cat,
          tags := b.tags, imageUrl := b.imageUrl, published := b.published,
          featured := b.featured }
  | _, _, _, _, _, _ => .error (requiredArticleErrors b)

/-- POST /api/articles handler: 400 with issue details on a parse failure,
otherwise 201 with the created article. -/
def postArticlesRoute (s : MemState) (newId : String) (now : Int)
    (b : RawArticleBody) : HResp × MemState :=
  match parseInsertArticle b with
  | .error errs => (.badRequest errs, s)
  | .ok ins =>
    let r := memCreateArticle s newId now ins
    (.createdArticle r.1, r.2)

/-- PUT /api/articles/:id handler (insertArticleSchema.partial() accepts any
subset of the insert fields). -/
def putArticleRoute (s : MemState) (id : String) (u : ArticleUpdate)
    (now : Int) : HResp × MemState :=
  let r := memUpdateArticle s id u now
  match r.1 with
  | none => (.notFound, r.2)
  | some a => (.okArticle a, r.2)

/-- DELETE /api/articles/:id handler. -/
def deleteArticleRoute (s : MemState) (id : String) : HResp × MemState :=
  let r := memDeleteArticle s id
  if r.1 then (.noContent, r.2) else (.notFound, r.2)

/-- A JSON request body for POST /api/articles/:articleId/comments.  The
handler overrides any articleId in the body with the path parameter. -/
structure RawCommentBody where
  author : Option String
  email : Option String
  content : Option String
deriving DecidableEq

def requiredCommentErrors (b : RawCommentBody) : List String :=
  (if b.author.isNone then ["author"] else []) ++
  (if b.email.isNone then ["email"] else []) ++
  (if b.content.isNone then ["content"] else [])

/-- insertCommentSchema.parse({...req.body, articleId: req.params.articleId}):
articleId always comes from the path. -/
def parseInsertComment (aid : String) (b : RawCommentBody) :
    Except (List String) InsertComment :=
  match b.author, b.email, b.content with
  | some au, some em, some co =>
    .ok { articleId := aid, author := au, email := em, content := co }
  | _, _, _ => .error (requiredCommentErrors b)

/-- POST /api/articles/:articleId/comments handler.  Note: it never checks
that an article with the given id exists. -/
def postCommentRoute (s : MemState) (newId : String) (now : Int)
    (aid : String) (b : RawCommentBody) : HResp × MemState :=
  match parseInsertComment aid b with
  | .error errs => (.badRequest errs, s)
  | .ok ins =>
    let r := memCreateComment s newId now ins
    (.createdComment r.1, r.2)

/-- DELETE /api/comments/:id handler. -/
def deleteCommentRoute (s : MemState) (id : String) : HResp × MemState :=
  let r := memDeleteComment s id
  if r.1 then (.noContent, r.2) else (.notFound, r.2)

/-! ## Sequences of storage operations (for the counters invariant)

randomUUID-generated create ids are modelled by a freshness hypothesis. -/

inductive StOp where
  | createArticle (id : String) (now : Int) (ins : InsertArticle)
  | updateArticle (id : String) (now : Int) (u : ArticleUpdate)
  | deleteArticle (id : String)
  | incrementViews (id : String)
  | toggleLike (id : String)
deriving DecidableEq

def applyOp (s : MemState) : StOp → MemState
  | .createArticle id now ins => (memCreateArticle s id now ins).2
  | .updateArticle id now u => (memUpdateArticle s id u now).2
  | .deleteArticle id => (memDeleteArticle s id).2
  | .incrementViews id => memIncrementViews s id
  | .toggleLike id => (memToggleLike s id).2

def applyOps (s : MemState) (ops : List StOp) : MemState :=
  ops.foldl applyOp s

/-- Both counters are present and non-negative. -/
def countersOkA (a : Article) : Bool :=
  match a.views, a.likes with
  | some v, some l => decide (0 ≤ v) && decide (0 ≤ l)
  | _, _ => false

def countersOk (s : MemState) : Prop :=
  ∀ p ∈ s.articles, countersOkA p.2 = true

def createIds (ops : List StOp) : List String :=
  ops.filterMap fun op =>
    match op with
    | .createArticle id _ _ => some id
    | _ => none

def opTargetId : StOp → String
  | .createArticle id _ _ => id
  | .updateArticle id _ _ => id
  | .deleteArticle id => id
  | .incrementViews id => id
  | .toggleLike id => id

def nonCreateIds (ops : List StOp) : List String :=
  ops.filterMap fun op =>
    match op with
    | .createArticle _ _ _ => none
    | .updateArticle id _ _ => some id
    | .deleteArticle id => some id
    | .incrementViews id => some id
    | .toggleLike id => some id

/-- randomUUID freshness for a whole sequence: ids used by createArticle are
pairwise distinct, absent from the starting store, and distinct from every
id addressed by the other operations. -/
def seqFresh (s : MemState) (ops : List StOp) : Prop :=
  (createIds ops).Nodup ∧
    ∀ cid ∈ createIds ops, cid ∉ mapKeys s.articles ∧ cid ∉ nonCreateIds ops

def stepFresh (s : MemState) : StOp → Prop
  | .createArticle id _ _ => id ∉ mapKeys s.articles
  | _ => True

/-! ## Sitemap (GET /sitemap.xml)

The handler builds one string: a literal header holding the three static
url entries, then one block per category, then one block per article, then
the closing tag.  The fixed fragments between interpolated values are named
so occurrence counting can step through them.  Date formatting
(`new Date(...).toISOString().split('T')[0]`) is a library call, passed in
as an oracle `fmtDate`. -/

def smH1 : String :=
  "<?xml version=\"1.0\" encoding=\"UTF-8\"?>\n<urlset xmlns=\"http://www.sitemaps.org/schemas/sitemap/0.9\">\n  <!-- Homepage -->\n  <url>\n    <loc>"

def smH2 : String := "/</loc>\n    <lastmod>"

def smH3 : String :=
  "</lastmod>\n    <changefreq>daily</changefreq>\n    <priority>1.0</priority>\n  </url>\n  \n  <!-- Search Page -->\n  <url>\n    <loc>"

def smH4 : String := "/search</loc>\n    <lastmod>"

def smH5 : String :=
  "</lastmod>\n    <changefreq>weekly</changefreq>\n    <priority>0.6</priority>\n  </url>\n  \n  <!-- Admin Panel -->\n  <url>\n    <loc>"

def smH6 : String := "/admin</loc>\n    <lastmod>"

def smH7 : String :=
  "</lastmod>\n    <changefreq>weekly</changefreq>\n    <priority>0.4</priority>\n  </url>\n"

def sitemapHeader (base date : String) : String :=
  smH1 ++ base ++ smH2 ++ date ++ smH3 ++ base ++ smH4 ++ date ++ smH5 ++
    base ++ smH6 ++ date ++ smH7

def smC1 : String := "  <url>\n    <loc>"

def smC2 : String := "/category/"

def smC3 : String := "</loc>\n    <lastmod>"

def smC4 : String :=
  "</lastmod>\n    <changefreq>daily</changefreq>\n    <priority>0.8</priority>\n  </url>\n"

def catBlock (base date : String) (c : Category) : String :=
  smC1 ++ base ++ smC2 ++ c.slug ++ smC3 ++ date ++ smC4

def smA2 : String := "/article/"

def smA4 : String :=
  "</lastmod>\n    <changefreq>weekly</changefreq>\n    <priority>0.7</priority>\n  </url>\n"

def artBlock (base : String) (fmtDate : Int → String) (a : Article) : String :=
  smC1 ++ base ++ smA2 ++ a.id ++ smC3 ++ fmtDate a.updatedAt ++ smA4

def smFooter : String := "</urlset>"

def catBlocksStr (base date : String) : List Category → String
  | [] => ""
  | c :: rest => catBlock base date c ++ catBlocksStr base date rest

def artBlocksStr (base : String) (fmtDate : Int → String) : List Article → String
  | [] => ""
  | a :: rest => artBlock base fmtDate a ++ artBlocksStr base fmtDate rest

def sitemapXml (base date : String) (fmtDate : Int → String)
    (cats : List Category) (arts : List Article) : String :=
  sitemapHeader base date ++ catBlocksStr base date cats ++
    artBlocksStr base fmtDate arts ++ smFooter

/-- GET /sitemap.xml handler: getArticles() with no params, getCategories(). -/
def sitemapRoute (s : MemState) (base date : String)
    (fmtDate : Int → String) : HResp :=
  .okXml (sitemapXml base date fmtDate (memGetCategories s)
    (memGetArticles ⟨none, none, none, none⟩ (mapValues s.articles)))

/-! ## Occurrence counting for the sitemap claim -/

/-- Number of start positions where `p` occurs in the list. -/
def countOcc (p : List Char) : List Char → Nat
  | [] => 0
  | c :: rest => (if hasPre p (c :: rest) then 1 else 0) + countOcc p rest

def urlTag : List Char := "<url>".data

/-- Whether matching `p` against `f` is already decided inside `f`: either
`p` fits entirely, or a mismatch happens before `f` runs out. -/
def decidedAt : List Char → List Char → Bool
  | [], _ => true
  | _ :: _, [] => false
  | a :: p, b :: f => if a == b then decidedAt p f else true

/-- Scan a fixed fragment: returns the occurrence count when every potential
match that starts inside the fragment is decided inside it (so the count is
unaffected by whatever is appended after the fragment). -/
def scanCount (p : List Char) : List Char → Option Nat
  | [] => some 0
  | c :: rest =>
    if decidedAt p (c :: rest) then
      match scanCount p rest with
      | some k => some ((if hasPre p (c :: rest) then 1 else 0) + k)
      | none => none
    else none

/-! ## Concrete example data (used by witnesses and counterexamples) -/

def exArticle : Article :=
  { id := "a1"
    title := "T"
    content := "C"
    excerpt := "E"
    author := "Au"
    authorTitle := "AT"
    authorImage := none
    category := "Technology"
    tags := some []
    imageUrl := none
    published := some true
    featured := some false
    views := some 5
    likes := some 2
    createdAt := 100
    updatedAt := 100 }

def exArticle2 : Article :=
  { exArticle with
    id := "a2"
    category := "Business"
    published := some false
    createdAt := 200
    updatedAt := 200 }

def exState : MemState :=
  { articles := [("a1", exArticle)], comments := [], categories := [] }

def exCat : Category :=
  { id := "cat1"
    name := "Technology"
    slug := "technology"
    description := none
    color := "blue" }

def exBadCat : Category := { exCat with slug := "x<url>y" }

def exStateGood : MemState :=
  { articles := [("a1", exArticle)], comments := []
    categories := [("cat1", exCat)] }

def exStateBadCat : MemState :=
  { articles := [], comments := [], categories := [("cat1", exBadCat)] }

def exNoUpdate : ArticleUpdate :=
  ⟨none, none, none, none, none, none, none, none, none, none, none⟩

def exInsert : InsertArticle :=
  { title := "T"
    content := "C"
    excerpt := "E"
    author := "Au"
    authorTitle := "AT"
    authorImage := none
    category := "Tech"
    tags := none
    imageUrl := none
    published := some true
    featured := none }

def exRawBody : RawArticleBody :=
  { title := some "T"
    content := some "C"
    excerpt := some "E"
    author := some "Au"
    authorTitle := some "AT"
    authorImage := none
    category := some "Tech"
    tags := none
    imageUrl := none
    published := some true
    featured := none
    views := some 99
    likes := some 42 }

def exRawBodyNoTitle : RawArticleBody := { exRawBody with title := none }

def exCommentBody : RawCommentBody :=
  { author := some "A", email := some "a@b.c", content := some "hi" }

def exComment : Comment :=
  { id := "c1"
    articleId := "a1"
    author := "A"
    email := "a@b.c"
    content := "hi"
    createdAt := 10 }

def exComment2 : Comment := { exComment with id := "c2", createdAt := 20 }

theorem mapGet_mapSet_self (m : List (String × α)) (k : String) (v : α) :
    mapGet (mapSet m k v) k = some v := by
  induction m with
  | nil => simp [mapSet, mapGet]
  | cons p rest ih =>
    obtain ⟨k', v'⟩ := p
    by_cases h : k' = k
    · simp [mapSet, h, mapGet]
    · simp [mapSet, h, mapGet, ih]

theorem mapGet_mapSet_ne (m : List (String × α)) (k : String) (v : α) (id : String)
    (h : id ≠ k) : mapGet (mapSet m k v) id = mapGet m id := by
  have hne : ¬ k = id := fun hh => h hh.symm
  induction m with
  | nil => simp [mapSet, mapGet, if_neg hne]
  | cons p rest ih =>
    obtain ⟨k', v'⟩ := p
    by_cases hk : k' = k
    · subst hk
      simp [mapSet, mapGet, if_neg hne]
    · simp only [mapSet, if_neg hk, mapGet]
      by_cases hid : k' = id
      · rw [if_pos hid, if_pos hid]
      · rw [if_neg hid, if_neg hid, ih]

theorem mapGet_some_mem_keys (m : List (String × α)) (k : String) (v : α)
    (h : mapGet m k = some v) : k ∈ mapKeys m := by
  induction m with
  | nil => simp [mapGet] at h
  | cons p rest ih =>
    obtain ⟨k', v'⟩ := p
    by_cases hk : k' = k
    · subst hk
      simp only [mapKeys, List.map_cons]
      exact List.mem_cons_self _ _
    · simp only [mapGet, if_neg hk] at h
      simp only [mapKeys, List.map_cons]
      exact List.mem_cons_of_mem _ (ih h)

theorem mapKeys_mapSet_subset (m : List (String × α)) (k : String) (v : α) :
    mapKeys (mapSet m k v) ⊆ k :: mapKeys m := by
  induction m with
  | nil =>
    simp only [mapSet, mapKeys, List.map_cons, List.map_nil]
    intro x hx
    exact hx
  | cons p rest ih =>
    obtain ⟨k', v'⟩ := p
    by_cases hk : k' = k
    · subst hk
      simp only [mapSet, if_pos rfl, mapKeys, List.map_cons]
      intro x hx
      rcases List.mem_cons.mp hx with h1 | h2
      · exact h1 ▸ List.mem_cons_self _ _
      · exact List.mem_cons_of_mem _ (List.mem_cons_of_mem _ h2)
    · simp only [mapSet, if_neg hk, mapKeys, List.map_cons]
      intro x hx
      rcases List.mem_cons.mp hx with h1 | h2
      · exact h1 ▸ List.mem_cons_of_mem _ (List.mem_cons_self _ _)
      · rcases List.mem_cons.mp (ih h2) with h3 | h4
        · exact h3 ▸ List.mem_cons_self _ _
        · exact List.mem_cons_of_mem _ (List.mem_cons_of_mem _ h4)

theorem mapDelete_fst_eq_isSome (m : List (String × α)) (k : String) :
    (mapDelete m k).1 = (mapGet m k).isSome := by
  induction m with
  | nil => simp [mapDelete, mapGet]
  | cons p rest ih =>
    obtain ⟨k', v'⟩ := p
    by_cases hk : k' = k
    · simp [mapDelete, hk, mapGet]
    · simp [mapDelete, hk, mapGet, ih]

theorem mapDelete_not_mem (m : List (String × α)) (k : String)
    (h : mapGet m k = none) : mapDelete m k = (false, m) := by
  induction m with
  | nil => simp [mapDelete]
  | cons p rest ih =>
    obtain ⟨k', v'⟩ := p
    by_cases hk : k' = k
    · simp [mapGet, hk] at h
    · simp [mapGet, hk] at h
      simp [mapDelete, hk, ih h]

theorem mapGet_mapDelete_self (m : List (String × α)) (k : String)
    (hnd : (mapKeys m).Nodup) : mapGet (mapDelete m k).2 k = none := by
  induction m with
  | nil => simp [mapDelete, mapGet]
  | cons p rest ih =>
    obtain ⟨k', v'⟩ := p
    simp only [mapKeys, List.map_cons, List.nodup_cons] at hnd
    by_cases hk : k' = k
    · subst hk
      simp only [mapDelete, if_pos rfl]
      cases hval : mapGet rest k' with
      | none => exact hval
      | some v =>
        exact absurd (mapGet_some_mem_keys rest k' v hval) hnd.1
    · simp only [mapDelete, if_neg hk]
      simp only [mapGet, if_neg hk]
      exact ih hnd.2

theorem mapGet_mapDelete_ne (m : List (String × α)) (k id : String)
    (h : id ≠ k) : mapGet (mapDelete m k).2 id = mapGet m id := by
  induction m with
  | nil => simp [mapDelete, mapGet]
  | cons p rest ih =>
    obtain ⟨k', v'⟩ := p
    by_cases hk : k' = k
    · subst hk
      have hne : ¬ k' = id := fun hh => h hh.symm
      simp only [mapDelete, if_pos rfl]
      simp [mapGet, if_neg hne]
    · simp only [mapDelete, if_neg hk]
      by_cases hid : k' = id
      · simp [mapGet, hid]
      · simp [mapGet, hid, ih]

theorem mapGet_some_mem (m : List (String × α)) (k : String) (v : α)
    (h : mapGet m k = some v) : (k, v) ∈ m := by
  induction m with
  | nil => simp [mapGet] at h
  | cons p rest ih =>
    obtain ⟨k', v'⟩ := p
    by_cases hk : k' = k
    · subst hk
      simp only [mapGet, eq_self_iff_true, if_true, Option.some.injEq] at h
      subst h
      exact List.mem_cons_self _ _
    · simp only [mapGet, if_neg hk] at h
      exact List.mem_cons_of_mem _ (ih h)

theorem mem_mapSet (m : List (String × α)) (k : String) (v : α) (p : String × α)
    (h : p ∈ mapSet m k v) : p ∈ m ∨ p = (k, v) := by
  induction m with
  | nil =>
    simp only [mapSet] at h
    rcases List.mem_singleton.mp h with h1
    exact .inr h1
  | cons q rest ih =>
    obtain ⟨k', v'⟩ := q
    by_cases hk : k' = k
    · simp only [mapSet, if_pos hk] at h
      rcases List.mem_cons.mp h with h1 | h2
      · exact .inr h1
      · exact .inl (List.mem_cons_of_mem _ h2)
    · simp only [mapSet, if_neg hk] at h
      rcases List.mem_cons.mp h with h1 | h2
      · exact .inl (h1 ▸ List.mem_cons_self _ _)
      · rcases ih h2 with h3 | h4
        · exact .inl (List.mem_cons_of_mem _ h3)
        · exact .inr h4

theorem mem_mapDelete (m : List (String × α)) (k : String) (p : String × α)
    (h : p ∈ (mapDelete m k).2) : p ∈ m := by
  induction m with
  | nil => simp [mapDelete] at h
  | cons q rest ih =>
    obtain ⟨k', v'⟩ := q
    by_cases hk : k' = k
    · simp only [mapDelete, if_pos hk] at h
      exact List.mem_cons_of_mem _ h
    · simp only [mapDelete, if_neg hk] at h
      rcases List.mem_cons.mp h with h1 | h2
      · exact h1 ▸ List.mem_cons_self _ _
      · exact List.mem_cons_of_mem _ (ih h2)

/-! ## Sorting facts -/

theorem mem_sortByCreatedAtDesc (l : List Article) (a : Article) :
    a ∈ sortByCreatedAtDesc l ↔ a ∈ l :=
  (List.perm_insertionSort createdDesc l).mem_iff

theorem sorted_sortByCreatedAtDesc (l : List Article) :
    List.Sorted createdDesc (sortByCreatedAtDesc l) :=
  List.sorted_insertionSort createdDesc l

theorem length_sortByCreatedAtDesc (l : List Article) :
    (sortByCreatedAtDesc l).length = l.length :=
  (List.perm_insertionSort createdDesc l).length_eq

/-- Behaviour of the GET /api/articles/:id handler on a present id: the
stored (and, through aliasing, the serialized) article is the bumped one. -/
theorem routeGetArticle_found (s : MemState) (id : String) (a : Article)
    (h : mapGet s.articles id = some a) :
    routeGetArticle s id =
      (.okArticle (bumpViews a),
        { s with articles := mapSet s.articles id (bumpViews a) }) := by
  simp only [routeGetArticle, memIncrementViews, h, mapGet_mapSet_self]

/-! ## Claim C3 -/

/-- C3: for every id not present in the article store, GET /api/articles/:id
responds 404 and leaves the store unchanged; for every id present, each call
increments that article's views counter by exactly 1 (the stored article
becomes the same article with views + 1) and modifies no other article and
no other table. -/
theorem c3_get_article_views (s : MemState) (id : String) :
    (memGetArticle s id = none → routeGetArticle s id = (.notFound, s)) ∧
    (∀ a, memGetArticle s id = some a →
      (routeGetArticle s id).2.articles = mapSet s.articles id (bumpViews a) ∧
      mapGet (routeGetArticle s id).2.articles id = some (bumpViews a) ∧
      (∀ id2, id2 ≠ id →
        mapGet (routeGetArticle s id).2.articles id2 = mapGet s.articles id2) ∧
      (routeGetArticle s id).2.comments = s.comments ∧
      (routeGetArticle s id).2.categories = s.categories) := by
  constructor
  · intro h
    unfold memGetArticle at h
    simp only [routeGetArticle, h]
  · intro a h
    unfold memGetArticle at h
    rw [routeGetArticle_found s id a h]
    refine ⟨rfl, mapGet_mapSet_self _ _ _, ?_, rfl, rfl⟩
    intro id2 hid2
    exact mapGet_mapSet_ne _ _ _ _ hid2

/-- Witness for C3 at a concrete store: fetching the stored article "a1"
(views = 5) yields a store holding views = 6, and fetching the absent id
"zz" yields 404 with the store unchanged. -/
theorem c3_get_article_views_witness :
    mapGet ((routeGetArticle exState "a1").2.articles) "a1" =
        some { exArticle with views := some 6 } ∧
      routeGetArticle exState "zz" = (.notFound, exState) := by
  constructor
  · have h := ((c3_get_article_views exState "a1").2 exArticle (by rfl)).2.1
    simpa [bumpViews, exArticle] using h
  · exact (c3_get_article_views exState "zz").1 (by rfl)

/-! ## Claim C8 -/

/-- C8: updateArticle on a missing id returns none (mapped by the PUT route
to 404) and leaves the store unchanged; deleteArticle, deleteComment and
deleteCategory return true exactly when an entity with that id existed (in
which case it is removed — stated under the Map no-duplicate-keys
invariant), and false with the store unchanged otherwise. -/
theorem c8_missing_update_and_delete_results (s : MemState) (id : String)
    (u : ArticleUpdate) (now : Int) :
    (mapGet s.articles id = none →
      memUpdateArticle s id u now = (none, s) ∧
      putArticleRoute s id u now = (.notFound, s)) ∧
    ((memDeleteArticle s id).1 = true ↔ ∃ a, mapGet s.articles id = some a) ∧
    (mapGet s.articles id = none → memDeleteArticle s id = (false, s)) ∧
    ((mapKeys s.articles).Nodup →
      mapGet (memDeleteArticle s id).2.articles id = none) ∧
    ((memDeleteComment s id).1 = true ↔ ∃ c, mapGet s.comments id = some c) ∧
    (mapGet s.comments id = none → memDeleteComment s id = (false, s)) ∧
    ((mapKeys s.comments).Nodup →
      mapGet (memDeleteComment s id).2.comments id = none) ∧
    ((memDeleteCategory s id).1 = true ↔ ∃ c, mapGet s.categories id = some c) ∧
    (mapGet s.categories id = none → memDeleteCategory s id = (false, s)) ∧
    ((mapKeys s.categories).Nodup →
      mapGet (memDeleteCategory s id).2.categories id = none) := by
  refine ⟨?_, ?_, ?_, ?_, ?_, ?_, ?_, ?_, ?_, ?_⟩
  · intro h
    have h1 : memUpdateArticle s id u now = (none, s) := by
      unfold memUpdateArticle
      rw [h]
    refine ⟨h1, ?_⟩
    unfold putArticleRoute
    rw [h1]
  · rw [memDeleteArticle, mapDelete_fst_eq_isSome]
    simp [Option.isSome_iff_exists]
  · intro h
    unfold memDeleteArticle
    rw [mapDelete_not_mem _ _ h]
  · intro h
    unfold memDeleteArticle
    exact mapGet_mapDelete_self _ _ h
  · rw [memDeleteComment, mapDelete_fst_eq_isSome]
    simp [Option.isSome_iff_exists]
  · intro h
    unfold memDeleteComment
    rw [mapDelete_not_mem _ _ h]
  · intro h
    unfold memDeleteComment
    exact mapGet_mapDelete_self _ _ h
  · rw [memDeleteCategory, mapDelete_fst_eq_isSome]
    simp [Option.isSome_iff_exists]
  · intro h
    unfold memDeleteCategory
    rw [mapDelete_not_mem _ _ h]
  · intro h
    unfold memDeleteCategory
    exact mapGet_mapDelete_self _ _ h

/-- Witness for C8 at a concrete store: updating or deleting the absent id
"zz" is a no-op returning none/false, and deleting the present id "a1"
returns true and removes it. -/
theorem c8_missing_update_and_delete_results_witness :
    memUpdateArticle exState "zz" exNoUpdate 0 = (none, exState) ∧
      memDeleteArticle exState "zz" = (false, exState) ∧
      (memDeleteArticle exState "a1").1 = true ∧
      mapGet (memDeleteArticle exState "a1").2.articles "a1" = none := by
  refine ⟨?_, ?_, ?_, ?_⟩
  · exact (((c8_missing_update_and_delete_results exState "zz" exNoUpdate 0).1) (by rfl)).1
  · exact ((c8_missing_update_and_delete_results exState "zz" exNoUpdate 0).2.2.1) (by rfl)
  · exact ((c8_missing_update_and_delete_results exState "a1" exNoUpdate 0).2.1).mpr
      ⟨exArticle, by rfl⟩
  · exact ((c8_missing_update_and_delete_results exState "a1" exNoUpdate 0).2.2.2.1)
      (by decide)

/-! ## Claim C4 -/

/-- C4: POST /api/articles with a body missing a required field (e.g. no
title) responds 400 carrying the field-level issue list (which then contains
"title") and creates nothing; with a body carrying all required fields it
responds 201 with an article whose id is the freshly generated one and whose
views and likes are 0 — the body's views/likes fields are universally
quantified here, so the result holds regardless of their values. -/
theorem c4_post_articles_validation (s : MemState) (newId : String) (now : Int)
    (b : RawArticleBody) :
    (b.title = none →
      (postArticlesRoute s newId now b).1 = .badRequest (requiredArticleErrors b) ∧
      "title" ∈ requiredArticleErrors b ∧
      (postArticlesRoute s newId now b).2 = s) ∧
    (∀ t c e au atl cat,
      b.title = some t → b.content = some c → b.excerpt = some e →
      b.author = some au → b.authorTitle = some atl → b.category = some cat →
      ∃ a, postArticlesRoute s newId now b =
          (.createdArticle a, { s with articles := mapSet s.articles newId a }) ∧
        a.id = newId ∧ a.views = some 0 ∧ a.likes = some 0) := by
  constructor
  · intro h
    have hparse : parseInsertArticle b = .error (requiredArticleErrors b) := by
      unfold parseInsertArticle
      rw [h]
    refine ⟨?_, ?_, ?_⟩
    · simp [postArticlesRoute, hparse]
    · unfold requiredArticleErrors
      rw [h]
      simp
    · simp [postArticlesRoute, hparse]
  · intro t c e au atl cat ht hc he hau hatl hcat
    have hparse : parseInsertArticle b =
        .ok { title := t, content := c, excerpt := e, author := au,
              authorTitle := atl, authorImage := b.authorImage, category := cat,
              tags := b.tags, imageUrl := b.imageUrl, published := b.published,
              featured := b.featured } := by
      unfold parseInsertArticle
      rw [ht, hc, he, hau, hatl, hcat]
    refine ⟨(memCreateArticle s newId now
      { title := t, content := c, excerpt := e, author := au,
        authorTitle := atl, authorImage := b.authorImage, category := cat,
        tags := b.tags, imageUrl := b.imageUrl, published := b.published,
        featured := b.featured }).1, ?_, rfl, rfl, rfl⟩
    simp [postArticlesRoute, hparse, memCreateArticle]

/-- Witness for C4: a body missing the title is rejected with a "title"
issue and no state change; the same body with the title present (and with
views = 99, likes = 42 smuggled into the body) creates an article with the
fresh id and zeroed counters. -/
theorem c4_post_articles_validation_witness :
    ((postArticlesRoute exState "n1" 7 exRawBodyNoTitle).1 =
        .badRequest (requiredArticleErrors exRawBodyNoTitle) ∧
      "title" ∈ requiredArticleErrors exRawBodyNoTitle ∧
      (postArticlesRoute exState "n1" 7 exRawBodyNoTitle).2 = exState) ∧
    ∃ a, postArticlesRoute exState "n1" 7 exRawBody =
        (.createdArticle a,
          { exState with articles := mapSet exState.articles "n1" a }) ∧
      a.id = "n1" ∧ a.views = some 0 ∧ a.likes = some 0 := by
  constructor
  · exact (c4_post_articles_validation exState "n1" 7 exRawBodyNoTitle).1 rfl
  · exact (c4_post_articles_validation exState "n1" 7 exRawBody).2
      "T" "C" "E" "Au" "AT" "Tech" rfl rfl rfl rfl rfl rfl

/-! ## Claim C9 -/

/-- C9 counterexample: the claim says the JSON returned by
GET /api/articles/:id has a views field exactly one less than the stored
post-call value.  On the concrete store holding article "a1" with views = 5,
the handler returns views = 6 and also stores views = 6 (res.json serializes
the same object that incrementViews mutated), and 6 ≠ 6 - 1. -/
theorem c9_counterexample :
    (routeGetArticle exState "a1").1 =
        .okArticle { exArticle with views := some 6 } ∧
      mapGet (routeGetArticle exState "a1").2.articles "a1" =
        some { exArticle with views := some 6 } ∧
      ¬ ((6 : Int) = 6 - 1) := by
  refine ⟨?_, ?_, by decide⟩
  · have h := routeGetArticle_found exState "a1" exArticle rfl
    rw [h]
    simp [bumpViews, exArticle]
  · have h := routeGetArticle_found exState "a1" exArticle rfl
    rw [h]
    rw [mapGet_mapSet_self]
    simp [bumpViews, exArticle]

/-- C9 amended: the article JSON returned by GET /api/articles/:id reflects
the view increment performed by the same request (res.json serializes the
stored object after incrementViews mutated it in place): its views field
equals the value stored after the call, namely the pre-call value plus one,
and a subsequent fetch of the same id returns the pre-call value plus two. -/
theorem c9_response_reflects_increment (s : MemState) (id : String)
    (a : Article) (v : Int) (h : memGetArticle s id = some a)
    (hv : a.views = some v) :
    (routeGetArticle s id).1 = .okArticle { a with views := some (v + 1) } ∧
    mapGet (routeGetArticle s id).2.articles id =
      some { a with views := some (v + 1) } ∧
    (routeGetArticle (routeGetArticle s id).2 id).1 =
      .okArticle { a with views := some (v + 2) } := by
  unfold memGetArticle at h
  have hb : bumpViews a = { a with views := some (v + 1) } := by
    simp [bumpViews, hv]
  have h1 := routeGetArticle_found s id a h
  have h2 : mapGet ({ s with articles := mapSet s.articles id (bumpViews a) }).articles id =
      some (bumpViews a) := mapGet_mapSet_self _ _ _
  have h3 := routeGetArticle_found _ id (bumpViews a) h2
  refine ⟨?_, ?_, ?_⟩
  · rw [h1, hb]
  · rw [h1, mapGet_mapSet_self, hb]
  · rw [h1]
    rw [h3]
    have hbb : bumpViews (bumpViews a) = { a with views := some (v + 2) } := by
      simp [bumpViews, hv]
      ring
    rw [hbb]

/-- Witness for C9 amended, at the concrete store with views = 5: the
response carries views = 6 and the second fetch returns views = 7. -/
theorem c9_response_reflects_increment_witness :
    (routeGetArticle exState "a1").1 =
        .okArticle { exArticle with views := some 6 } ∧
      (routeGetArticle (routeGetArticle exState "a1").2 "a1").1 =
        .okArticle { exArticle with views := some 7 } := by
  have h := c9_response_reflects_increment exState "a1" exArticle 5 rfl rfl
  exact ⟨h.1, h.2.2⟩

/-! ## Claim C10 -/

theorem featuredFilter_subset (f : Option Bool) (l : List Article) :
    featuredFilter f l ⊆ l := by
  cases f with
  | none => exact fun a h => h
  | some b => exact (List.filter_sublist _).subset

theorem mem_publishedFilter_some (b : Bool) (l : List Article) (a : Article)
    (h : a ∈ publishedFilter (some b) l) : a.published = some b := by
  simp only [publishedFilter] at h
  have h2 := (List.mem_filter.mp h).2
  exact of_decide_eq_true h2

theorem mem_featuredFilter_some (b : Bool) (l : List Article) (a : Article)
    (h : a ∈ featuredFilter (some b) l) : a.featured = some b := by
  simp only [featuredFilter] at h
  have h2 := (List.mem_filter.mp h).2
  exact of_decide_eq_true h2

theorem mem_memGetArticles_published (p : SearchParams) (l : List Article)
    (b : Bool) (hp : p.published = some b) :
    ∀ a ∈ memGetArticles p l, a.published = some b := by
  intro a ha
  have h2 := (mem_sortByCreatedAtDesc _ _).mp ha
  have h3 := featuredFilter_subset p.featured _ h2
  rw [hp] at h3
  exact mem_publishedFilter_some b _ a h3

theorem mem_memGetArticles_featured (p : SearchParams) (l : List Article)
    (b : Bool) (hf : p.featured = some b) :
    ∀ a ∈ memGetArticles p l, a.featured = some b := by
  intro a ha
  have h2 := (mem_sortByCreatedAtDesc _ _).mp ha
  rw [hf] at h2
  exact mem_featuredFilter_some b _ a h2

/-- C10: in GET /api/articles and GET /api/search, a supplied published or
featured query parameter whose value is any string other than "true" is
coerced to the boolean false (so the routes then select only articles whose
flag is exactly false), and the parameter acts as "no filtering" exactly
when it is not supplied at all. -/
theorem c10_bool_param_coercion (s : MemState) (qp : QueryParams) (v : String) :
    ((coerceParams qp).published = none ↔ qp.published = none) ∧
    ((coerceParams qp).featured = none ↔ qp.featured = none) ∧
    (qp.published = some v → ¬ v = "true" →
      (coerceParams qp).published = some false ∧
      (∀ a ∈ articlesRouteList s qp, a.published = some false) ∧
      (∀ a ∈ searchRouteList s qp, a.published = some false)) ∧
    (qp.featured = some v → ¬ v = "true" →
      (coerceParams qp).featured = some false ∧
      (∀ a ∈ articlesRouteList s qp, a.featured = some false) ∧
      (∀ a ∈ searchRouteList s qp, a.featured = some false)) := by
  refine ⟨?_, ?_, ?_, ?_⟩
  · simp [coerceParams, Option.map_eq_none']
  · simp [coerceParams, Option.map_eq_none']
  · intro h hv
    have hp : (coerceParams qp).published = some false := by
      simp [coerceParams, h, hv]
    refine ⟨hp, ?_, ?_⟩
    · exact mem_memGetArticles_published (coerceParams qp) _ false hp
    · exact mem_memGetArticles_published (coerceParams qp) _ false hp
  · intro h hv
    have hf : (coerceParams qp).featured = some false := by
      simp [coerceParams, h, hv]
    refine ⟨hf, ?_, ?_⟩
    · exact mem_memGetArticles_featured (coerceParams qp) _ false hf
    · exact mem_memGetArticles_featured (coerceParams qp) _ false hf

/-- Witness for C10: published = "FALSE" (not the exact string "true") is
coerced to the false filter and the store's only (published) article is
excluded from the response; an absent parameter coerces to none. -/
theorem c10_bool_param_coercion_witness :
    (coerceParams ⟨none, none, some "FALSE", none⟩).published = some false ∧
      (∀ a ∈ articlesRouteList exState ⟨none, none, some "FALSE", none⟩,
        a.published = some false) ∧
      ((coerceParams ⟨none, none, none, none⟩).published = none) := by
  have h := (c10_bool_param_coercion exState ⟨none, none, some "FALSE", none⟩
    "FALSE").2.2.1 rfl (by decide)
  refine ⟨h.1, h.2.1, ?_⟩
  exact (c10_bool_param_coercion exState ⟨none, none, none, none⟩ "x").1.mpr rfl

/-! ## Claim C2 -/

theorem mem_categoryFilter_some (c : String) (hc : ¬ c = "") (l : List Article)
    (a : Article) :
    a ∈ categoryFilter (some c) l ↔
      (a ∈ l ∧ jsToLower a.category = jsToLower c) := by
  simp [categoryFilter, if_neg hc, List.mem_filter]

theorem mem_publishedFilter_iff (b : Bool) (l : List Article) (a : Article) :
    a ∈ publishedFilter (some b) l ↔ (a ∈ l ∧ a.published = some b) := by
  simp [publishedFilter, List.mem_filter]

/-- C2: filtering by category=Technology and published=true (the
SearchParams produced by the route coercion for that request) returns
exactly the articles whose category equals "Technology" case-insensitively
and whose published flag is true, sorted by creation time descending; and
the GET /api/articles handler for the query string
category=Technology&published=true delegates to exactly that filter. -/
theorem c2_category_published_query (l : List Article) :
    (∀ a, a ∈ memGetArticles ⟨none, some "Technology", some true, none⟩ l ↔
      (a ∈ l ∧ jsToLower a.category = jsToLower "Technology" ∧
        a.published = some true)) ∧
    List.Sorted createdDesc
      (memGetArticles ⟨none, some "Technology", some true, none⟩ l) ∧
    (∀ s : MemState,
      articlesRouteList s ⟨none, some "Technology", some "true", none⟩ =
        memGetArticles ⟨none, some "Technology", some true, none⟩
          (mapValues s.articles)) := by
  have hrfl : memGetArticles ⟨none, some "Technology", some true, none⟩ l =
      sortByCreatedAtDesc
        (publishedFilter (some true) (categoryFilter (some "Technology") l)) := rfl
  refine ⟨?_, ?_, ?_⟩
  · intro a
    rw [hrfl, mem_sortByCreatedAtDesc, mem_publishedFilter_iff,
      mem_categoryFilter_some "Technology" (by decide)]
    tauto
  · rw [hrfl]
    exact sorted_sortByCreatedAtDesc _
  · intro s
    rfl

/-- Witness for C2 on a concrete two-article list: the published Technology
article is in the response and the Business article is not. -/
theorem c2_category_published_query_witness :
    exArticle ∈ memGetArticles ⟨none, some "Technology", some true, none⟩
        [exArticle, exArticle2] ∧
      exArticle2 ∉ memGetArticles ⟨none, some "Technology", some true, none⟩
        [exArticle, exArticle2] := by
  constructor
  · exact ((c2_category_published_query [exArticle, exArticle2]).1 exArticle).mpr
      ⟨by decide, by decide, by decide⟩
  · intro h
    have h2 := ((c2_category_published_query [exArticle, exArticle2]).1 exArticle2).mp h
    have h3 := h2.2.1
    revert h3
    decide

/-! ## Claim C1 -/

/-- C1 counterexample: the two IStorage implementations do not agree for
every filter combination.  With published=true and a store holding one
unpublished article, MemStorage.getArticles filters it out but
DatabaseStorage.getArticles builds no condition for `published` at all and
returns it. -/
theorem c1_counterexample :
    dbGetArticles ⟨none, none, some true, none⟩ [exArticle2] ≠
      memGetArticles ⟨none, none, some true, none⟩ [exArticle2] := by
  decide

/-- C1 amended: the implementations agree (same articles, same order) when
no query, category, or published filter is supplied — i.e. on the
featured-only and unfiltered combinations — and for comments the two
implementations return the same set for an article id, though MemStorage
orders newest-first while DatabaseStorage applies no ordering.  (They
genuinely diverge elsewhere: DatabaseStorage ignores `published`, matches
`query` against the title only, and matches `category` by substring.) -/
theorem c1_featured_only_equivalence :
    (∀ (l : List Article) (p : SearchParams), p.query = none → p.category = none →
      p.published = none → dbGetArticles p l = memGetArticles p l) ∧
    (∀ (cl : List Comment) (aid : String),
      List.Perm (dbGetCommentsByArticleId cl aid)
        (memGetCommentsByArticleId cl aid)) := by
  constructor
  · intro l p hq hc hp
    obtain ⟨q, c, pb, f⟩ := p
    obtain rfl : q = none := hq
    obtain rfl : c = none := hc
    obtain rfl : pb = none := hp
    cases f with
    | none => rfl
    | some b =>
      show sortByCreatedAtDesc _ = sortByCreatedAtDesc _
      simp only [dbConditions, List.nil_append, List.isEmpty_cons,
        List.all_cons, List.all_nil, Bool.and_true]
      rfl
  · intro cl aid
    exact (List.perm_insertionSort _ _).symm

/-- Witness for C1 amended at concrete inputs: featured-only filtering
agrees on a two-article store, and the comment sets agree for "a1". -/
theorem c1_featured_only_equivalence_witness :
    dbGetArticles ⟨none, none, none, some true⟩ [exArticle, exArticle2] =
      memGetArticles ⟨none, none, none, some true⟩ [exArticle, exArticle2] ∧
    List.Perm (dbGetCommentsByArticleId [exComment, exComment2] "a1")
      (memGetCommentsByArticleId [exComment, exComment2] "a1") :=
  ⟨c1_featured_only_equivalence.1 _ _ rfl rfl rfl,
    c1_featured_only_equivalence.2 _ _⟩

/-! ## Claim C6 -/

/-- C6 counterexample: the comment-creation handler performs no existence
check, so one POST /api/articles/ghost/comments on a store whose only
article is "a1" yields a state containing a stored comment whose articleId
("ghost") matches no article in the store — refuting the claimed referential
integrity invariant. -/
theorem c6_dangling_comment_counterexample :
    (∃ c, mapGet
        (postCommentRoute exState "c9" 0 "ghost" exCommentBody).2.comments "c9" =
          some c ∧ c.articleId = "ghost") ∧
    (∀ a ∈ mapValues
        (postCommentRoute exState "c9" 0 "ghost" exCommentBody).2.articles,
      ¬ a.id = "ghost") := by
  constructor
  · exact ⟨⟨"c9", "ghost", "A", "a@b.c", "hi", 0⟩, by decide, rfl⟩
  · decide

/-- C6 amended: comment creation is scoped to an article only in the sense
that the stored comment's articleId is exactly the articleId path parameter
of the request that created it; the handler neither consults nor modifies
the articles table, so the store does not guarantee that the referenced
article exists. -/
theorem c6_comment_articleId_from_path (s : MemState) (newId : String)
    (now : Int) (aid : String) (b : RawCommentBody) :
    (postCommentRoute s newId now aid b).2.articles = s.articles ∧
    (∀ au em co, b.author = some au → b.email = some em → b.content = some co →
      ∃ c, postCommentRoute s newId now aid b =
          (.createdComment c, { s with comments := mapSet s.comments newId c }) ∧
        c.articleId = aid) := by
  constructor
  · rcases hb : parseInsertComment aid b with errs | ins
    · simp [postCommentRoute, hb]
    · simp [postCommentRoute, hb, memCreateComment]
  · intro au em co hau hem hco
    have hparse : parseInsertComment aid b = .ok ⟨aid, au, em, co⟩ := by
      unfold parseInsertComment
      rw [hau, hem, hco]
    refine ⟨(memCreateComment s newId now ⟨aid, au, em, co⟩).1, ?_, rfl⟩
    simp [postCommentRoute, hparse, memCreateComment]

/-- Witness for C6 amended at the concrete ghost request. -/
theorem c6_comment_articleId_from_path_witness :
    (postCommentRoute exState "c9" 0 "ghost" exCommentBody).2.articles =
        exState.articles ∧
      ∃ c, postCommentRoute exState "c9" 0 "ghost" exCommentBody =
          (.createdComment c,
            { exState with comments := mapSet exState.comments "c9" c }) ∧
        c.articleId = "ghost" := by
  refine ⟨(c6_comment_articleId_from_path exState "c9" 0 "ghost" exCommentBody).1, ?_⟩
  exact (c6_comment_articleId_from_path exState "c9" 0 "ghost" exCommentBody).2
    "A" "a@b.c" "hi" rfl rfl rfl

/-! ## Claim C5: supporting lemmas -/

theorem countersOkA_bumpViews (a : Article) (h : countersOkA a = true) :
    countersOkA (bumpViews a) = true := by
  unfold countersOkA at h ⊢
  cases hv : a.views with
  | none => rw [hv] at h; exact absurd h (by simp)
  | some v =>
    cases hl : a.likes with
    | none => rw [hv, hl] at h; exact absurd h (by simp)
    | some l =>
      rw [hv, hl] at h
      simp only [Bool.and_eq_true, decide_eq_true_eq] at h
      show countersOkA { a with views := some (a.views.getD 0 + 1) } = true
      simp only [countersOkA, hv, hl, Option.getD_some, Bool.and_eq_true,
        decide_eq_true_eq]
      omega

theorem countersOkA_bumpLikes (a : Article) (h : countersOkA a = true) :
    countersOkA (bumpLikes a) = true := by
  unfold countersOkA at h ⊢
  cases hv : a.views with
  | none => rw [hv] at h; exact absurd h (by simp)
  | some v =>
    cases hl : a.likes with
    | none => rw [hv, hl] at h; exact absurd h (by simp)
    | some l =>
      rw [hv, hl] at h
      simp only [Bool.and_eq_true, decide_eq_true_eq] at h
      show countersOkA { a with likes := some (a.likes.getD 0 + 1) } = true
      simp only [countersOkA, hv, hl, Option.getD_some, Bool.and_eq_true,
        decide_eq_true_eq]
      omega

theorem countersOkA_applyUpdate (a : Article) (u : ArticleUpdate) (now : Int)
    (h : countersOkA a = true) : countersOkA (applyUpdate a u now) = true := h

theorem nodup_mapKeys_mapSet (m : List (String × α)) (k : String) (v : α)
    (h : (mapKeys m).Nodup) : (mapKeys (mapSet m k v)).Nodup := by
  induction m with
  | nil => simp [mapSet, mapKeys]
  | cons p rest ih =>
    obtain ⟨k', v'⟩ := p
    simp only [mapKeys, List.map_cons, List.nodup_cons] at h
    by_cases hk : k' = k
    · subst hk
      simp only [mapSet, eq_self_iff_true, if_true, mapKeys, List.map_cons,
        List.nodup_cons]
      exact h
    · simp only [mapSet, if_neg hk, mapKeys, List.map_cons, List.nodup_cons]
      refine ⟨?_, ih h.2⟩
      intro hmem
      rcases List.mem_cons.mp (mapKeys_mapSet_subset rest k v hmem) with h1 | h2
      · exact hk h1
      · exact h.1 h2

theorem mapDelete_keys_sublist (m : List (String × α)) (k : String) :
    List.Sublist (mapKeys (mapDelete m k).2) (mapKeys m) := by
  induction m with
  | nil => simp [mapDelete, mapKeys]
  | cons p rest ih =>
    obtain ⟨k', v'⟩ := p
    by_cases hk : k' = k
    · simp only [mapDelete, if_pos hk, mapKeys, List.map_cons]
      exact List.sublist_cons_self _ _
    · simp only [mapDelete, if_neg hk, mapKeys, List.map_cons]
      exact List.Sublist.cons₂ _ ih

theorem nodup_mapKeys_mapDelete (m : List (String × α)) (k : String)
    (h : (mapKeys m).Nodup) : (mapKeys (mapDelete m k).2).Nodup :=
  h.sublist (mapDelete_keys_sublist m k)

theorem nodup_keys_applyOp (s : MemState) (op : StOp)
    (h : (mapKeys s.articles).Nodup) :
    (mapKeys (applyOp s op).articles).Nodup := by
  cases op with
  | createArticle cid now ins => exact nodup_mapKeys_mapSet _ _ _ h
  | updateArticle uid now u =>
    cases hg : mapGet s.articles uid with
    | none => simpa [applyOp, memUpdateArticle, hg] using h
    | some b =>
      simp only [applyOp, memUpdateArticle, hg]
      exact nodup_mapKeys_mapSet _ _ _ h
  | deleteArticle did => exact nodup_mapKeys_mapDelete _ _ h
  | incrementViews vid =>
    cases hg : mapGet s.articles vid with
    | none => simpa [applyOp, memIncrementViews, hg] using h
    | some b =>
      simp only [applyOp, memIncrementViews, hg]
      exact nodup_mapKeys_mapSet _ _ _ h
  | toggleLike lid =>
    cases hg : mapGet s.articles lid with
    | none => simpa [applyOp, memToggleLike, hg] using h
    | some b =>
      simp only [applyOp, memToggleLike, hg]
      exact nodup_mapKeys_mapSet _ _ _ h

theorem mapKeys_applyOp_subset (s : MemState) (op : StOp) :
    mapKeys (applyOp s op).articles ⊆
      opTargetId op :: mapKeys s.articles := by
  cases op with
  | createArticle cid now ins => exact mapKeys_mapSet_subset _ _ _
  | updateArticle uid now u =>
    cases hg : mapGet s.articles uid with
    | none =>
      simp only [applyOp, memUpdateArticle, hg]
      exact fun x hx => List.mem_cons_of_mem _ hx
    | some b =>
      simp only [applyOp, memUpdateArticle, hg]
      exact mapKeys_mapSet_subset _ _ _
  | deleteArticle did =>
    exact fun x hx =>
      List.mem_cons_of_mem _ ((mapDelete_keys_sublist _ _).subset hx)
  | incrementViews vid =>
    cases hg : mapGet s.articles vid with
    | none =>
      simp only [applyOp, memIncrementViews, hg]
      exact fun x hx => List.mem_cons_of_mem _ hx
    | some b =>
      simp only [applyOp, memIncrementViews, hg]
      exact mapKeys_mapSet_subset _ _ _
  | toggleLike lid =>
    cases hg : mapGet s.articles lid with
    | none =>
      simp only [applyOp, memToggleLike, hg]
      exact fun x hx => List.mem_cons_of_mem _ hx
    | some b =>
      simp only [applyOp, memToggleLike, hg]
      exact mapKeys_mapSet_subset _ _ _

theorem countersOk_applyOp (s : MemState) (op : StOp) (h : countersOk s) :
    countersOk (applyOp s op) := by
  cases op with
  | createArticle cid now ins =>
    intro p hp
    rcases mem_mapSet _ _ _ _ hp with h1 | h2
    · exact h p h1
    · rw [h2]
      rfl
  | updateArticle uid now u =>
    cases hg : mapGet s.articles uid with
    | none =>
      intro p hp
      simp only [applyOp, memUpdateArticle, hg] at hp
      exact h p hp
    | some b =>
      intro p hp
      simp only [applyOp, memUpdateArticle, hg] at hp
      rcases mem_mapSet _ _ _ _ hp with h1 | h2
      · exact h p h1
      · rw [h2]
        exact countersOkA_applyUpdate b u now (h _ (mapGet_some_mem _ _ _ hg))
  | deleteArticle did =>
    intro p hp
    exact h p (mem_mapDelete _ _ _ hp)
  | incrementViews vid =>
    cases hg : mapGet s.articles vid with
    | none =>
      intro p hp
      simp only [applyOp, memIncrementViews, hg] at hp
      exact h p hp
    | some b =>
      intro p hp
      simp only [applyOp, memIncrementViews, hg] at hp
      rcases mem_mapSet _ _ _ _ hp with h1 | h2
      · exact h p h1
      · rw [h2]
        exact countersOkA_bumpViews b (h _ (mapGet_some_mem _ _ _ hg))
  | toggleLike lid =>
    cases hg : mapGet s.articles lid with
    | none =>
      intro p hp
      simp only [applyOp, memToggleLike, hg] at hp
      exact h p hp
    | some b =>
      intro p hp
      simp only [applyOp, memToggleLike, hg] at hp
      rcases mem_mapSet _ _ _ _ hp with h1 | h2
      · exact h p h1
      · rw [h2]
        exact countersOkA_bumpLikes b (h _ (mapGet_some_mem _ _ _ hg))

theorem countersOk_applyOps (ops : List StOp) (s : MemState)
    (h : countersOk s) : countersOk (applyOps s ops) := by
  induction ops generalizing s with
  | nil => exact h
  | cons op ops ih => exact ih (applyOp s op) (countersOk_applyOp s op h)

theorem applyOp_mono (s : MemState) (op : StOp) (hnd : (mapKeys s.articles).Nodup)
    (hf : stepFresh s op) (id : String) (a a' : Article)
    (h1 : mapGet s.articles id = some a)
    (h2 : mapGet (applyOp s op).articles id = some a') :
    a.views.getD 0 ≤ a'.views.getD 0 ∧ a.likes.getD 0 ≤ a'.likes.getD 0 := by
  cases op with
  | createArticle cid now ins =>
    have hid : id ≠ cid := fun hh =>
      hf (hh ▸ mapGet_some_mem_keys _ _ _ h1)
    rw [show (applyOp s (.createArticle cid now ins)).articles =
        mapSet s.articles cid (memCreateArticle s cid now ins).1 from rfl] at h2
    rw [mapGet_mapSet_ne _ _ _ _ hid, h1] at h2
    cases h2
    exact ⟨le_refl _, le_refl _⟩
  | updateArticle uid now u =>
    cases hg : mapGet s.articles uid with
    | none =>
      simp only [applyOp, memUpdateArticle, hg] at h2
      rw [h1] at h2
      cases h2
      exact ⟨le_refl _, le_refl _⟩
    | some b =>
      simp only [applyOp, memUpdateArticle, hg] at h2
      by_cases hid : id = uid
      · subst hid
        rw [h1] at hg
        cases hg
        rw [mapGet_mapSet_self] at h2
        cases h2
        exact ⟨le_refl _, le_refl _⟩
      · rw [mapGet_mapSet_ne _ _ _ _ hid, h1] at h2
        cases h2
        exact ⟨le_refl _, le_refl _⟩
  | deleteArticle did =>
    by_cases hid : id = did
    · subst hid
      rw [show (applyOp s (.deleteArticle id)).articles =
          (mapDelete s.articles id).2 from rfl] at h2
      rw [mapGet_mapDelete_self _ _ hnd] at h2
      cases h2
    · rw [show (applyOp s (.deleteArticle did)).articles =
          (mapDelete s.articles did).2 from rfl] at h2
      rw [mapGet_mapDelete_ne _ _ _ hid, h1] at h2
      cases h2
      exact ⟨le_refl _, le_refl _⟩
  | incrementViews vid =>
    cases hg : mapGet s.articles vid with
    | none =>
      simp only [applyOp, memIncrementViews, hg] at h2
      rw [h1] at h2
      cases h2
      exact ⟨le_refl _, le_refl _⟩
    | some b =>
      simp only [applyOp, memIncrementViews, hg] at h2
      by_cases hid : id = vid
      · subst hid
        rw [h1] at hg
        cases hg
        rw [mapGet_mapSet_self] at h2
        cases h2
        refine ⟨?_, le_refl _⟩
        show a.views.getD 0 ≤ (some (a.views.getD 0 + 1)).getD 0
        simp
      · rw [mapGet_mapSet_ne _ _ _ _ hid, h1] at h2
        cases h2
        exact ⟨le_refl _, le_refl _⟩
  | toggleLike lid =>
    cases hg : mapGet s.articles lid with
    | none =>
      simp only [applyOp, memToggleLike, hg] at h2
      rw [h1] at h2
      cases h2
      exact ⟨le_refl _, le_refl _⟩
    | some b =>
      simp only [applyOp, memToggleLike, hg] at h2
      by_cases hid : id = lid
      · subst hid
        rw [h1] at hg
        cases hg
        rw [mapGet_mapSet_self] at h2
        cases h2
        refine ⟨le_refl _, ?_⟩
        show a.likes.getD 0 ≤ (some (a.likes.getD 0 + 1)).getD 0
        simp
      · rw [mapGet_mapSet_ne _ _ _ _ hid, h1] at h2
        cases h2
        exact ⟨le_refl _, le_refl _⟩

theorem applyOp_absent (s : MemState) (op : StOp) (id : String)
    (h : mapGet s.articles id = none)
    (hc : ∀ cid now ins, op = .createArticle cid now ins → ¬ cid = id) :
    mapGet (applyOp s op).articles id = none := by
  cases op with
  | createArticle cid now ins =>
    have hne : id ≠ cid := fun hh => hc cid now ins rfl hh.symm
    rw [show (applyOp s (.createArticle cid now ins)).articles =
        mapSet s.articles cid (memCreateArticle s cid now ins).1 from rfl]
    rw [mapGet_mapSet_ne _ _ _ _ hne]
    exact h
  | updateArticle uid now u =>
    cases hg : mapGet s.articles uid with
    | none => simpa [applyOp, memUpdateArticle, hg] using h
    | some b =>
      have hne : id ≠ uid := fun hh => by rw [hh, hg] at h; cases h
      simp only [applyOp, memUpdateArticle, hg]
      rw [mapGet_mapSet_ne _ _ _ _ hne]
      exact h
  | deleteArticle did =>
    by_cases hid : id = did
    · subst hid
      rw [show (applyOp s (.deleteArticle id)).articles =
          (mapDelete s.articles id).2 from rfl]
      rw [mapDelete_not_mem _ _ h]
      exact h
    · rw [show (applyOp s (.deleteArticle did)).articles =
          (mapDelete s.articles did).2 from rfl]
      rw [mapGet_mapDelete_ne _ _ _ hid]
      exact h
  | incrementViews vid =>
    cases hg : mapGet s.articles vid with
    | none => simpa [applyOp, memIncrementViews, hg] using h
    | some b =>
      have hne : id ≠ vid := fun hh => by rw [hh, hg] at h; cases h
      simp only [applyOp, memIncrementViews, hg]
      rw [mapGet_mapSet_ne _ _ _ _ hne]
      exact h
  | toggleLike lid =>
    cases hg : mapGet s.articles lid with
    | none => simpa [applyOp, memToggleLike, hg] using h
    | some b =>
      have hne : id ≠ lid := fun hh => by rw [hh, hg] at h; cases h
      simp only [applyOp, memToggleLike, hg]
      rw [mapGet_mapSet_ne _ _ _ _ hne]
      exact h

theorem applyOps_absent (ops : List StOp) (s : MemState) (id : String)
    (h : mapGet s.articles id = none) (hc : id ∉ createIds ops) :
    mapGet (applyOps s ops).articles id = none := by
  induction ops generalizing s with
  | nil => exact h
  | cons op ops ih =>
    have hstep : mapGet (applyOp s op).articles id = none := by
      refine applyOp_absent s op id h ?_
      intro cid now ins hop hcid
      apply hc
      rw [hop]
      simp [createIds, List.filterMap_cons, hcid]
    refine ih (applyOp s op) hstep ?_
    intro hmem
    apply hc
    cases op with
    | createArticle cid now ins =>
      simp only [createIds, List.filterMap_cons] at hmem ⊢
      exact List.mem_cons_of_mem _ hmem
    | updateArticle uid now u => simpa [createIds, List.filterMap_cons] using hmem
    | deleteArticle did => simpa [createIds, List.filterMap_cons] using hmem
    | incrementViews vid => simpa [createIds, List.filterMap_cons] using hmem
    | toggleLike lid => simpa [createIds, List.filterMap_cons] using hmem

theorem createIds_tail_subset (op : StOp) (ops : List StOp) :
    createIds ops ⊆ createIds (op :: ops) := by
  intro cid hcid
  cases op with
  | createArticle c n i =>
    simp only [createIds, List.filterMap_cons] at hcid ⊢
    exact List.mem_cons_of_mem _ hcid
  | updateArticle uid n u => simpa [createIds, List.filterMap_cons] using hcid
  | deleteArticle did => simpa [createIds, List.filterMap_cons] using hcid
  | incrementViews vid => simpa [createIds, List.filterMap_cons] using hcid
  | toggleLike lid => simpa [createIds, List.filterMap_cons] using hcid

theorem nonCreateIds_tail_subset (op : StOp) (ops : List StOp) :
    nonCreateIds ops ⊆ nonCreateIds (op :: ops) := by
  intro x hx
  cases op with
  | createArticle c n i => simpa [nonCreateIds, List.filterMap_cons] using hx
  | updateArticle uid n u =>
    simp only [nonCreateIds, List.filterMap_cons] at hx ⊢
    exact List.mem_cons_of_mem _ hx
  | deleteArticle did =>
    simp only [nonCreateIds, List.filterMap_cons] at hx ⊢
    exact List.mem_cons_of_mem _ hx
  | incrementViews vid =>
    simp only [nonCreateIds, List.filterMap_cons] at hx ⊢
    exact List.mem_cons_of_mem _ hx
  | toggleLike lid =>
    simp only [nonCreateIds, List.filterMap_cons] at hx ⊢
    exact List.mem_cons_of_mem _ hx

theorem opTargetId_mem_nonCreateIds (op : StOp) (ops : List StOp)
    (h : ∀ c n i, op ≠ .createArticle c n i) :
    opTargetId op ∈ nonCreateIds (op :: ops) := by
  cases op with
  | createArticle c n i => exact absurd rfl (h c n i)
  | updateArticle uid n u =>
    simp [nonCreateIds, List.filterMap_cons, opTargetId]
  | deleteArticle did => simp [nonCreateIds, List.filterMap_cons, opTargetId]
  | incrementViews vid => simp [nonCreateIds, List.filterMap_cons, opTargetId]
  | toggleLike lid => simp [nonCreateIds, List.filterMap_cons, opTargetId]

theorem seqFresh_cons (s : MemState) (op : StOp) (ops : List StOp)
    (h : seqFresh s (op :: ops)) :
    stepFresh s op ∧ seqFresh (applyOp s op) ops := by
  obtain ⟨hnd, hall⟩ := h
  constructor
  · cases op with
    | createArticle c n i =>
      have hc : c ∈ createIds (.createArticle c n i :: ops) := by
        simp [createIds, List.filterMap_cons]
      exact (hall c hc).1
    | updateArticle uid n u => trivial
    | deleteArticle did => trivial
    | incrementViews vid => trivial
    | toggleLike lid => trivial
  · constructor
    · cases op with
      | createArticle c n i =>
        simp only [createIds, List.filterMap_cons] at hnd
        exact (List.nodup_cons.mp hnd).2
      | updateArticle uid n u => simpa [createIds, List.filterMap_cons] using hnd
      | deleteArticle did => simpa [createIds, List.filterMap_cons] using hnd
      | incrementViews vid => simpa [createIds, List.filterMap_cons] using hnd
      | toggleLike lid => simpa [createIds, List.filterMap_cons] using hnd
    · intro cid hcid
      have hcid' := createIds_tail_subset op ops hcid
      obtain ⟨hk, hnc⟩ := hall cid hcid'
      constructor
      · intro hmem
        rcases List.mem_cons.mp (mapKeys_applyOp_subset s op hmem) with heq | hks
        · cases op with
          | createArticle c n i =>
            have hcn : c ∉ createIds ops := by
              simp only [createIds, List.filterMap_cons] at hnd
              exact (List.nodup_cons.mp hnd).1
            have heq' : cid = c := heq
            exact hcn (heq' ▸ hcid)
          | updateArticle uid n u =>
            refine hnc ?_
            rw [heq]
            exact opTargetId_mem_nonCreateIds _ ops (by intro c n i hh; cases hh)
          | deleteArticle did =>
            refine hnc ?_
            rw [heq]
            exact opTargetId_mem_nonCreateIds _ ops (by intro c n i hh; cases hh)
          | incrementViews vid =>
            refine hnc ?_
            rw [heq]
            exact opTargetId_mem_nonCreateIds _ ops (by intro c n i hh; cases hh)
          | toggleLike lid =>
            refine hnc ?_
            rw [heq]
            exact opTargetId_mem_nonCreateIds _ ops (by intro c n i hh; cases hh)
        · exact hk hks
      · intro hmem
        exact hnc (nonCreateIds_tail_subset op ops hmem)

theorem applyOps_mono (ops : List StOp) (s : MemState)
    (hnd : (mapKeys s.articles).Nodup) (hf : seqFresh s ops) (id : String)
    (a a' : Article) (h1 : mapGet s.articles id = some a)
    (h2 : mapGet (applyOps s ops).articles id = some a') :
    a.views.getD 0 ≤ a'.views.getD 0 ∧ a.likes.getD 0 ≤ a'.likes.getD 0 := by
  induction ops generalizing s a with
  | nil =>
    rw [show applyOps s [] = s from rfl, h1] at h2
    cases h2
    exact ⟨le_refl _, le_refl _⟩
  | cons op ops ih =>
    obtain ⟨hstep, hf'⟩ := seqFresh_cons s op ops hf
    have hnd' := nodup_keys_applyOp s op hnd
    have h2' : mapGet (applyOps (applyOp s op) ops).articles id = some a' := h2
    cases hmid : mapGet (applyOp s op).articles id with
    | none =>
      have hkeys : id ∈ mapKeys s.articles := mapGet_some_mem_keys _ _ _ h1
      have hnotin : id ∉ createIds ops := by
        intro hmem
        exact (hf.2 id (createIds_tail_subset op ops hmem)).1 hkeys
      rw [applyOps_absent ops (applyOp s op) id hmid hnotin] at h2'
      cases h2'
    | some b =>
      have hab := applyOp_mono s op hnd hstep id a b h1 hmid
      have hba' := ih (applyOp s op) hnd' hf' b hmid h2'
      exact ⟨le_trans hab.1 hba'.1, le_trans hab.2 hba'.2⟩

/-! ## Claim C5 -/

/-- C5: for every store whose articles all carry well-defined non-negative
counters and every sequence of storage operations (createArticle,
updateArticle, deleteArticle, incrementViews, toggleLike; create ids being
fresh randomUUIDs is modelled by `seqFresh`), the counters stay present and
non-negative and an article's counters never decrease across the sequence;
incrementViews/toggleLike change exactly their own counter by +1, and
updateArticle (whose zod-parsed payload cannot contain views or likes)
leaves both counters of the updated article unchanged. -/
theorem c5_counters_nonneg_monotone :
    (∀ (s : MemState) (ops : List StOp),
      countersOk s → countersOk (applyOps s ops)) ∧
    (∀ (s : MemState) (ops : List StOp), (mapKeys s.articles).Nodup →
      seqFresh s ops → ∀ id a a', mapGet s.articles id = some a →
        mapGet (applyOps s ops).articles id = some a' →
        a.views.getD 0 ≤ a'.views.getD 0 ∧
          a.likes.getD 0 ≤ a'.likes.getD 0) ∧
    (∀ (s : MemState) (id : String) (a : Article),
      mapGet s.articles id = some a →
      mapGet (memIncrementViews s id).articles id = some (bumpViews a) ∧
      mapGet (memToggleLike s id).2.articles id = some (bumpLikes a) ∧
      ∀ u now, mapGet (memUpdateArticle s id u now).2.articles id =
        some (applyUpdate a u now)) ∧
    (∀ (a : Article) (u : ArticleUpdate) (now : Int),
      (bumpViews a).views = some (a.views.getD 0 + 1) ∧
      (bumpViews a).likes = a.likes ∧
      (bumpLikes a).likes = some (a.likes.getD 0 + 1) ∧
      (bumpLikes a).views = a.views ∧
      (applyUpdate a u now).views = a.views ∧
      (applyUpdate a u now).likes = a.likes) := by
  refine ⟨fun s ops h => countersOk_applyOps ops s h,
    fun s ops hnd hf id a a' h1 h2 => applyOps_mono ops s hnd hf id a a' h1 h2,
    ?_, fun a u now => ⟨rfl, rfl, rfl, rfl, rfl, rfl⟩⟩
  intro s id a h
  refine ⟨?_, ?_, ?_⟩
  · simp only [memIncrementViews, h]
    exact mapGet_mapSet_self _ _ _
  · simp only [memToggleLike, h]
    exact mapGet_mapSet_self _ _ _
  · intro u now
    simp only [memUpdateArticle, h]
    exact mapGet_mapSet_self _ _ _

/-- Witness for C5 on a concrete store and operation sequence: the
invariant survives an increment followed by a fresh create, and the stored
counters of "a1" do not decrease. -/
theorem c5_counters_nonneg_monotone_witness :
    countersOk (applyOps exState
      [.incrementViews "a1", .createArticle "n1" 5 exInsert]) ∧
    (exArticle.views.getD 0 ≤ (bumpViews exArticle).views.getD 0 ∧
      exArticle.likes.getD 0 ≤ (bumpViews exArticle).likes.getD 0) := by
  constructor
  · exact c5_counters_nonneg_monotone.1 exState
      [.incrementViews "a1", .createArticle "n1" 5 exInsert]
      (by unfold countersOk; decide)
  · exact c5_counters_nonneg_monotone.2.1 exState
      [.incrementViews "a1", .createArticle "n1" 5 exInsert] (by decide)
      (by unfold seqFresh createIds nonCreateIds; decide)
      "a1" exArticle (bumpViews exArticle) rfl (by decide)

/-! ## Claim C7: counting url entries in the sitemap string -/

theorem hasPre_decided (p : List Char) : ∀ (f : List Char),
    decidedAt p f = true → ∀ s, hasPre p (f ++ s) = hasPre p f := by
  induction p with
  | nil => intro f h s; rfl
  | cons a p ih =>
    intro f h s
    cases f with
    | nil => simp [decidedAt] at h
    | cons b f' =>
      simp only [decidedAt] at h
      cases hab : (a == b) with
      | false =>
        simp only [List.cons_append, hasPre, hab, Bool.false_and]
      | true =>
        rw [hab] at h
        simp only [if_true] at h
        simp only [List.cons_append, hasPre, hab, Bool.true_and]
        exact ih f' h s

theorem countOcc_chunk (p f : List Char) (k : Nat)
    (h : scanCount p f = some k) (s : List Char) :
    countOcc p (f ++ s) = k + countOcc p s := by
  induction f generalizing k with
  | nil =>
    simp only [scanCount, Option.some.injEq] at h
    subst h
    simp [countOcc]
  | cons c rest ih =>
    simp only [scanCount] at h
    cases hdec : decidedAt p (c :: rest) with
    | false => rw [hdec] at h; simp at h
    | true =>
      rw [hdec] at h
      simp only [if_true] at h
      cases hrest : scanCount p rest with
      | none => rw [hrest] at h; simp at h
      | some kr =>
        rw [hrest] at h
        simp only [Option.some.injEq] at h
        subst h
        have hpre : hasPre p ((c :: rest) ++ s) = hasPre p (c :: rest) :=
          hasPre_decided p (c :: rest) hdec s
        calc countOcc p ((c :: rest) ++ s)
            = (if hasPre p ((c :: rest) ++ s) then 1 else 0) +
                countOcc p (rest ++ s) := rfl
          _ = (if hasPre p (c :: rest) then 1 else 0) + (kr + countOcc p s) := by
              rw [hpre, ih kr hrest]
          _ = ((if hasPre p (c :: rest) then 1 else 0) + kr) + countOcc p s := by
              omega

theorem countOcc_of_scan (p f : List Char) (k : Nat)
    (h : scanCount p f = some k) : countOcc p f = k := by
  have h2 := countOcc_chunk p f k h []
  rw [List.append_nil] at h2
  simpa [countOcc] using h2

theorem hasPre_urlTag_cons (c : Char) (l : List Char) :
    hasPre urlTag (c :: l) = (('<' == c) && hasPre "url>".data l) := rfl

theorem countOcc_skip (v s : List Char) (hv : '<' ∉ v) :
    countOcc urlTag (v ++ s) = countOcc urlTag s := by
  induction v with
  | nil => rfl
  | cons c v ih =>
    have hv' : '<' ∉ v := fun hh => hv (List.mem_cons_of_mem _ hh)
    have hc : ('<' == c) = false := by
      have hne : ¬ ('<' : Char) = c := fun hh => hv (hh ▸ List.mem_cons_self _ _)
      exact beq_eq_false_iff_ne.mpr hne
    calc countOcc urlTag ((c :: v) ++ s)
        = (if hasPre urlTag (c :: (v ++ s)) then 1 else 0) +
            countOcc urlTag (v ++ s) := rfl
      _ = countOcc urlTag s := by
          rw [hasPre_urlTag_cons, hc, Bool.false_and, ih hv']
          simp

theorem scan_smH1 : scanCount urlTag smH1.data = some 1 := by decide

theorem scan_smH2 : scanCount urlTag smH2.data = some 0 := by decide

theorem scan_smH3 : scanCount urlTag smH3.data = some 1 := by decide

theorem scan_smH4 : scanCount urlTag smH4.data = some 0 := by decide

theorem scan_smH5 : scanCount urlTag smH5.data = some 1 := by decide

theorem scan_smH6 : scanCount urlTag smH6.data = some 0 := by decide

theorem scan_smH7 : scanCount urlTag smH7.data = some 0 := by decide

theorem scan_smC1 : scanCount urlTag smC1.data = some 1 := by decide

theorem scan_smC2 : scanCount urlTag smC2.data = some 0 := by decide

theorem scan_smC3 : scanCount urlTag smC3.data = some 0 := by decide

theorem scan_smC4 : scanCount urlTag smC4.data = some 0 := by decide

theorem scan_smA2 : scanCount urlTag smA2.data = some 0 := by decide

theorem scan_smA4 : scanCount urlTag smA4.data = some 0 := by decide

theorem scan_smFooter : scanCount urlTag smFooter.data = some 0 := by decide

theorem countOcc_header (base date : String) (hb : '<' ∉ base.data)
    (hd : '<' ∉ date.data) (s : List Char) :
    countOcc urlTag ((sitemapHeader base date).data ++ s) =
      3 + countOcc urlTag s := by
  simp only [sitemapHeader, String.data_append, List.append_assoc]
  rw [countOcc_chunk _ _ _ scan_smH1, countOcc_skip _ _ hb,
    countOcc_chunk _ _ _ scan_smH2, countOcc_skip _ _ hd,
    countOcc_chunk _ _ _ scan_smH3, countOcc_skip _ _ hb,
    countOcc_chunk _ _ _ scan_smH4, countOcc_skip _ _ hd,
    countOcc_chunk _ _ _ scan_smH5, countOcc_skip _ _ hb,
    countOcc_chunk _ _ _ scan_smH6, countOcc_skip _ _ hd,
    countOcc_chunk _ _ _ scan_smH7]
  omega

theorem countOcc_catBlocks (base date : String) (hb : '<' ∉ base.data)
    (hd : '<' ∉ date.data) (s : List Char) : ∀ (cats : List Category),
    (∀ c ∈ cats, '<' ∉ c.slug.data) →
    countOcc urlTag ((catBlocksStr base date cats).data ++ s) =
      cats.length + countOcc urlTag s := by
  intro cats
  induction cats with
  | nil =>
    intro _
    rw [show (catBlocksStr base date []).data = [] from rfl]
    simp
  | cons c cats ih =>
    intro hs
    have hsc : '<' ∉ c.slug.data := hs c (List.mem_cons_self _ _)
    have hs' : ∀ x ∈ cats, '<' ∉ x.slug.data :=
      fun x hx => hs x (List.mem_cons_of_mem _ hx)
    simp only [catBlocksStr, catBlock, String.data_append, List.append_assoc,
      List.length_cons]
    rw [countOcc_chunk _ _ _ scan_smC1, countOcc_skip _ _ hb,
      countOcc_chunk _ _ _ scan_smC2, countOcc_skip _ _ hsc,
      countOcc_chunk _ _ _ scan_smC3, countOcc_skip _ _ hd,
      countOcc_chunk _ _ _ scan_smC4]
    have := ih hs'
    simp only [List.append_assoc] at this
    rw [this]
    omega

theorem countOcc_artBlocks (base : String) (fmtDate : Int → String)
    (hb : '<' ∉ base.data) (s : List Char) : ∀ (arts : List Article),
    (∀ a ∈ arts, '<' ∉ a.id.data) →
    (∀ a ∈ arts, '<' ∉ (fmtDate a.updatedAt).data) →
    countOcc urlTag ((artBlocksStr base fmtDate arts).data ++ s) =
      arts.length + countOcc urlTag s := by
  intro arts
  induction arts with
  | nil =>
    intro _ _
    rw [show (artBlocksStr base fmtDate []).data = [] from rfl]
    simp
  | cons a arts ih =>
    intro hid hfd
    have hida : '<' ∉ a.id.data := hid a (List.mem_cons_self _ _)
    have hfda : '<' ∉ (fmtDate a.updatedAt).data := hfd a (List.mem_cons_self _ _)
    have hid' : ∀ x ∈ arts, '<' ∉ x.id.data :=
      fun x hx => hid x (List.mem_cons_of_mem _ hx)
    have hfd' : ∀ x ∈ arts, '<' ∉ (fmtDate x.updatedAt).data :=
      fun x hx => hfd x (List.mem_cons_of_mem _ hx)
    simp only [artBlocksStr, artBlock, String.data_append, List.append_assoc,
      List.length_cons]
    rw [countOcc_chunk _ _ _ scan_smC1, countOcc_skip _ _ hb,
      countOcc_chunk _ _ _ scan_smA2, countOcc_skip _ _ hida,
      countOcc_chunk _ _ _ scan_smC3, countOcc_skip _ _ hfda,
      countOcc_chunk _ _ _ scan_smA4]
    have := ih hid' hfd'
    simp only [List.append_assoc] at this
    rw [this]
    omega

/-- C7 counterexample: the claimed count does not hold for every store
state.  Category slugs are arbitrary strings (insertCategorySchema imposes
no URL-safety), and with the single category slug "x<url>y" and no articles
the sitemap contains 5 occurrences of "<url>" while C + A + 3 = 4 — the
response is then also not well-formed XML. -/
theorem c7_counterexample :
    countOcc urlTag (sitemapXml "http://localhost:5000" "2026-01-01"
        (fun _ => "2026-01-01") (memGetCategories exStateBadCat)
        (memGetArticles ⟨none, none, none, none⟩
          (mapValues exStateBadCat.articles))).data = 5 ∧
      exStateBadCat.categories.length + exStateBadCat.articles.length + 3 = 4 := by
  constructor
  · decide
  · rfl

/-- C7 amended: for every store state whose category slugs, article ids and
formatted article dates contain no markup character (no '<' — in particular
for URL-safe slugs and UUID ids, as produced by the seed data and
randomUUID), the GET /sitemap.xml response contains exactly C + A + 3
occurrences of "<url>": one url entry per category, one per article, and
three static pages.  The base URL and current date strings interpolated by
the handler are likewise assumed markup-free. -/
theorem c7_sitemap_url_count (s : MemState) (base date : String)
    (fmtDate : Int → String) (hb : '<' ∉ base.data) (hd : '<' ∉ date.data)
    (hs : ∀ c ∈ mapValues s.categories, '<' ∉ c.slug.data)
    (hid : ∀ a ∈ mapValues s.articles, '<' ∉ a.id.data)
    (hfd : ∀ a ∈ mapValues s.articles, '<' ∉ (fmtDate a.updatedAt).data) :
    countOcc urlTag (sitemapXml base date fmtDate (memGetCategories s)
        (memGetArticles ⟨none, none, none, none⟩
          (mapValues s.articles))).data =
      s.categories.length + s.articles.length + 3 := by
  have hc : (memGetCategories s).length = s.categories.length := by
    simp [memGetCategories, mapValues]
  have ha : (memGetArticles ⟨none, none, none, none⟩
      (mapValues s.articles)).length = s.articles.length := by
    show (sortByCreatedAtDesc (mapValues s.articles)).length = _
    rw [length_sortByCreatedAtDesc]
    simp [mapValues]
  have hid' : ∀ a ∈ memGetArticles ⟨none, none, none, none⟩
      (mapValues s.articles), '<' ∉ a.id.data := fun a haa =>
    hid a ((mem_sortByCreatedAtDesc (mapValues s.articles) a).mp haa)
  have hfd' : ∀ a ∈ memGetArticles ⟨none, none, none, none⟩
      (mapValues s.articles), '<' ∉ (fmtDate a.updatedAt).data := fun a haa =>
    hfd a ((mem_sortByCreatedAtDesc (mapValues s.articles) a).mp haa)
  simp only [sitemapXml, String.data_append, List.append_assoc]
  rw [countOcc_header base date hb hd,
    countOcc_catBlocks base date hb hd _ (memGetCategories s) hs,
    countOcc_artBlocks base fmtDate hb _ _ hid' hfd',
    countOcc_of_scan _ _ _ scan_smFooter]
  rw [hc, ha]
  omega

/-- Witness for C7 amended at a concrete store with one well-formed
category and one article: the count is 1 + 1 + 3 = 5. -/
theorem c7_sitemap_url_count_witness :
    countOcc urlTag (sitemapXml "http://localhost:5000" "2026-01-01"
        (fun _ => "2026-01-01") (memGetCategories exStateGood)
        (memGetArticles ⟨none, none, none, none⟩
          (mapValues exStateGood.articles))).data =
      exStateGood.categories.length + exStateGood.articles.length + 3 :=
  c7_sitemap_url_count exStateGood "http://localhost:5000" "2026-01-01"
    (fun _ => "2026-01-01") (by decide) (by decide) (by decide) (by decide)
    (by decide)

end NewsFlow
